import Mathlib

/-!
Verification development for the configor configuration-loading library
(single source file `configor.go`).

The library loads configuration files (YAML/JSON/TOML), merges them into a
struct, then walks the struct with `processTags`, applying environment-variable
overrides, `default` tag values and `required` checks.

The Go code is shallowly embedded:
* the process environment is a total function `String → String` (Go's
  `os.Getenv` returns `""` for unset variables);
* the file system is a predicate `String → Bool` (`true` means the path exists
  as a regular file, the conjunction checked in `configor.go` lines 41 and 55);
* Go structs are modelled by the mutual inductive family `GoValue` /
  `GoFields` / `GoValues` (values, struct field lists, slice element lists),
  with struct-tag metadata in `FieldMeta`;
* the external codecs (yaml/json/toml marshalling) are parameters, except for
  the scalar fragment of `yaml.Unmarshal` used to decode `default` literals and
  environment-override strings, which is modelled concretely by `decode`.

String helpers (`asciiUpper`, `strEndsWith`, decimal parsing) are implemented
over character lists so that every definition reduces definitionally; they
model the ASCII behaviour of Go's `strings.ToUpper`, `strings.HasSuffix` and
the plain-decimal fragment of yaml integer parsing.
-/

/-- Process environment: `os.Getenv`. Unset variables read as `""`. -/
abbrev Getenv := String → String

/-- File system: `true` iff the path exists and is a regular file
(`os.Stat` succeeding and `Mode().IsRegular()`, `configor.go` lines 41, 55). -/
abbrev FS := String → Bool

/-- ASCII upper-casing of a character, the ASCII fragment of the mapping used
by Go's `strings.ToUpper`. -/
def upChar (c : Char) : Char :=
  if 97 ≤ c.toNat && c.toNat ≤ 122 then Char.ofNat (c.toNat - 32) else c

/-- ASCII fragment of Go's `strings.ToUpper` (tag-derived names in configor are
ASCII identifiers joined with `"_"`). -/
def asciiUpper (s : String) : String := String.mk (s.data.map upChar)

/-- Decides whether the first list is a leading segment of the second. -/
def listIsPre : List Char → List Char → Bool
  | [], _ => true
  | _ :: _, [] => false
  | a :: as, b :: bs => a == b && listIsPre as bs

/-- Go's `strings.HasSuffix s suf`. -/
def strEndsWith (s suf : String) : Bool :=
  listIsPre suf.data.reverse s.data.reverse

/-- Go's `strings.TrimSuffix s suf`. -/
def trimSuffix (s suf : String) : String :=
  if strEndsWith s suf then s.dropRight suf.length else s

/-- Decides whether `needle` occurs as a contiguous substring of `hay`;
models `regexp.MatchString` for the metacharacter-free pattern `"/_test/"`
used in `configor.go` line 25. -/
def listHasSub (needle : List Char) : List Char → Bool
  | [] => needle.isEmpty
  | b :: bs => listIsPre needle (b :: bs) || listHasSub needle bs

/-- Substring test on strings (see `listHasSub`). -/
def strHasSub (needle hay : String) : Bool := listHasSub needle.data hay.data

/-- Accumulates the value of a decimal digit string; fails on a non-digit. -/
def digitsToNat (acc : Nat) : List Char → Option Nat
  | [] => some acc
  | c :: rest =>
    if 48 ≤ c.toNat && c.toNat ≤ 57 then digitsToNat (acc * 10 + (c.toNat - 48)) rest
    else none

/-- Plain-decimal integer parsing (optional sign followed by digits): the
fragment of yaml scalar resolution relevant to integer `default` literals and
environment-override strings. -/
def parseDecInt (s : String) : Option Int :=
  match s.data with
  | [] => none
  | '-' :: rest =>
    if rest.isEmpty then none else (digitsToNat 0 rest).map (fun n => -(n : Int))
  | '+' :: rest =>
    if rest.isEmpty then none else (digitsToNat 0 rest).map (fun n => (n : Int))
  | l => (digitsToNat 0 l).map (fun n => (n : Int))

/-- `ENV` (`configor.go` lines 20-29): the value of `CONFIGOR_ENV` when
non-empty, else `"test"` when `os.Args[0]` matches the pattern `"/_test/"`
(a metacharacter-free regexp, i.e. a substring test), else `"development"`.
`arg0` is the invocation path `os.Args[0]`. -/
def ENV (getenv : Getenv) (arg0 : String) : String :=
  if getenv "CONFIGOR_ENV" != "" then getenv "CONFIGOR_ENV"
  else if strHasSub "/_test/" arg0 then "test"
  else "development"

/-- Go's `path.Ext` on the reversed character list: scan from the end of the
path, stop at `'/'`, return the suffix from the last `'.'`. -/
def pathExtAux : List Char → List Char → String
  | [], _ => ""
  | c :: rest, acc =>
    if c == '/' then ""
    else if c == '.' then String.mk (c :: acc)
    else pathExtAux rest (c :: acc)

/-- Go's `path.Ext`. -/
def pathExt (file : String) : String := pathExtAux file.data.reverse []

/-- The suffixed variant filename built in `getConfigurationWithENV`
(`configor.go` lines 33-39): insert `"." ++ env` before the extension, or
append it when the path has no extension. -/
def envVariantName (file env : String) : String :=
  let extname := pathExt file
  if extname == "" then file ++ "." ++ env
  else trimSuffix file extname ++ "." ++ env ++ extname

/-- `getConfigurationWithENV` (`configor.go` lines 31-45): return the suffixed
variant when it exists as a regular file, else an error naming the base file. -/
def getConfigurationWithENV (fs : FS) (file env : String) : Except String String :=
  let envFile := envVariantName file env
  if fs envFile then .ok envFile else .error ("failed to find file " ++ file)

/-- One iteration of the loop in `getConfigurations` (`configor.go` lines
50-75): collect the base path when it exists, then the environment-suffixed
variant when it exists; when neither was found fall back to the
`"example"`-suffixed variant, and fail when that is missing too. -/
def resolveOne (fs : FS) (envName file : String) : Except String (List String) :=
  let base := if fs file then [file] else []
  let withEnv :=
    match getConfigurationWithENV fs file envName with
    | .ok f => base ++ [f]
    | .error _ => base
  if withEnv.isEmpty then
    match getConfigurationWithENV fs file "example" with
    | .ok ex => .ok [ex]
    | .error _ => .error ("Failed to find configuration " ++ file ++ "\n")
  else .ok withEnv

/-- The loop of `getConfigurations` runs `i` from `len(files)-1` down to `0`,
appending each reference's paths to `results`; this helper consumes the input
list already reversed, in that order. -/
def getConfigurationsAux (fs : FS) (envName : String) : List String → Except String (List String)
  | [] => .ok []
  | f :: rest =>
    match resolveOne fs envName f with
    | .error e => .error e
    | .ok l =>
      match getConfigurationsAux fs envName rest with
      | .error e => .error e
      | .ok ls => .ok (l ++ ls)

/-- `getConfigurations` (`configor.go` lines 47-77): resolve the base file
references in reverse input order. -/
def getConfigurations (fs : FS) (envName : String) (files : List String) :
    Except String (List String) :=
  getConfigurationsAux fs envName files.reverse

/-- `getPrefix` (`configor.go` lines 79-84): the value of
`CONFIGOR_ENV_PREFIX` when non-empty, else `"configor"`. -/
def getPfx (getenv : Getenv) : String :=
  if getenv "CONFIGOR_ENV_PREFIX" != "" then getenv "CONFIGOR_ENV_PREFIX" else "configor"

/-- The name-segment list `Load` passes to `processTags` (`configor.go` lines
120-124): empty for the sentinel `"-"`, else the single segment `getPrefix`. -/
def loadPfxList (getenv : Getenv) : List String :=
  if getPfx getenv == "-" then [] else [getPfx getenv]

/-- Struct-tag metadata of one field (`reflect.StructField.Tag` reads in
`processTags`): declared field name and the `env`, `default` and `required`
tags, each `""` when absent. -/
structure FieldMeta where
  name : String
  envTag : String
  defaultTag : String
  requiredTag : String
deriving Repr, DecidableEq

mutual

/-- A Go value as traversed by `processTags`: integer, string and boolean
scalars, a possibly-nil pointer, a struct, or a slice.  A nil pointer is
`vNilPtr`; a nil slice and an empty slice are both `vSlice .nil` (Go's
`reflect.DeepEqual` distinguishes them, the model conflates them; none of the
verified claims depends on that distinction). -/
inductive GoValue : Type where
  | vInt (n : Int)
  | vStr (s : String)
  | vBool (b : Bool)
  | vNilPtr
  | vPtr (v : GoValue)
  | vStruct (fs : GoFields)
  | vSlice (es : GoValues)
deriving Repr, DecidableEq

/-- The fields of a struct, in declaration order, each with its tag metadata. -/
inductive GoFields : Type where
  | nil
  | cons (m : FieldMeta) (v : GoValue) (rest : GoFields)
deriving Repr, DecidableEq

/-- The elements of a slice, in index order. -/
inductive GoValues : Type where
  | nil
  | cons (v : GoValue) (rest : GoValues)
deriving Repr, DecidableEq

end

/-- A scalar produced by decoding a literal string (`yaml.Unmarshal` of a
`default` tag or environment-override value into a scalar field). -/
inductive ScalarV : Type where
  | sInt (n : Int)
  | sStr (s : String)
  | sBool (b : Bool)
deriving Repr, DecidableEq

/-- Embeds a decoded scalar back into `GoValue`. -/
def ScalarV.toGo : ScalarV → GoValue
  | .sInt n => .vInt n
  | .sStr s => .vStr s
  | .sBool b => .vBool b

/-- The literal-decoding step `yaml.Unmarshal([]byte(value), field.Addr())`
used for environment overrides (`configor.go` line 146) and `default` literals
(line 155).  The target type is the current value's shape.  Modelled for the
scalar fragment: plain decimal integers, plain strings (taken verbatim), and
the booleans `true` / `false`; decoding into composite targets is outside the
modelled fragment and is mapped to an error. -/
def decode (s : String) (v : GoValue) : Except String ScalarV :=
  match v with
  | .vInt _ =>
    match parseDecInt s with
    | some n => .ok (.sInt n)
    | none => .error ("cannot unmarshal " ++ s ++ " into int")
  | .vStr _ => .ok (.sStr s)
  | .vBool _ =>
    if s == "true" then .ok (.sBool true)
    else if s == "false" then .ok (.sBool false)
    else .error ("cannot unmarshal " ++ s ++ " into bool")
  | _ => .error ("unmodelled decode target for " ++ s)

mutual

/-- `reflect.DeepEqual(field.Interface(), reflect.Zero(field.Type()).Interface())`
(`configor.go` line 152): deep equality with the type's zero value.  Zero
scalars, nil pointers, structs with all fields zero, and empty slices are
"blank". -/
def isZero : GoValue → Bool
  | .vInt n => n == 0
  | .vStr s => s == ""
  | .vBool b => b == false
  | .vNilPtr => true
  | .vPtr _ => false
  | .vStruct fs => fieldsZero fs
  | .vSlice es =>
    match es with
    | .nil => true
    | .cons _ _ => false
termination_by structural v => v

/-- Deep equality of a field list with all-zero fields (see `isZero`). -/
def fieldsZero : GoFields → Bool
  | .nil => true
  | .cons _ v rest => isZero v && fieldsZero rest
termination_by structural fs => fs

end

/-- The environment-variable name consulted for a field (`configor.go` lines
139-142): the `env` tag when non-empty, else the name segments followed by the
field name, joined with `"_"` and upper-cased. -/
def deriveEnvName (pre : List String) (m : FieldMeta) : String :=
  if m.envTag != "" then m.envTag
  else asciiUpper (String.intercalate "_" (pre ++ [m.name]))

/-- Step 1 of `processTags` for one field (`configor.go` lines 138-150): when
the derived name is non-empty and resolves to a non-empty environment value,
decode that value into the field.  Returns `some` decoded scalar when a decode
happened, `none` when the field is untouched. -/
def envStep (env : Getenv) (pre : List String) (m : FieldMeta) (v : GoValue) :
    Except String (Option ScalarV) :=
  let envName := deriveEnvName pre m
  if envName != "" then
    if env envName != "" then (decode (env envName) v).map some
    else .ok none
  else .ok none

/-- Step 2 of `processTags` for one field (`configor.go` lines 152-162): when
the field is deep-equal to its zero value, decode the `default` tag into it
when one is declared, else fail when `required` is `"true"`.  Returns `some`
decoded scalar when a decode happened, `none` when the field is untouched. -/
def defaultStep (m : FieldMeta) (v : GoValue) : Except String (Option ScalarV) :=
  if isZero v then
    if m.defaultTag != "" then (decode m.defaultTag v).map some
    else if m.requiredTag == "true" then .error (m.name ++ " is required, but blank")
    else .ok none
  else .ok none

/-- The guard on slice elements (`configor.go` line 177):
`reflect.Indirect(field.Index(i)).Kind() == reflect.Struct`, i.e. the element
is a struct after at most one pointer dereference (`reflect.Indirect` of a nil
pointer is the invalid `Value`, whose kind is not `Struct`). -/
def isStructIndirect : GoValue → Bool
  | .vStruct _ => true
  | .vPtr (.vStruct _) => true
  | _ => false

mutual

/-- `processTags(config, prefix...)` (`configor.go` lines 127-186) applied to
the value `config` points at (`reflect.Indirect(reflect.ValueOf(config))`):
error unless that value is a struct, else process its fields in declaration
order. -/
def processTagsV (env : Getenv) (pre : List String) : GoValue → Except String GoValue
  | .vStruct fs => (processFields env pre fs).map .vStruct
  | _ => .error "invalid config, should be struct"
termination_by structural v => v

/-- The field loop of `processTags` (`configor.go` lines 134-184): for each
field, apply the environment-override step, the default/required step, then
dereference pointers and recurse into a struct (name segments extended with
the field name) or into the struct elements of a slice (extended with the
field name and the element index).  When one of the first two steps decoded a
literal the field holds a scalar (`ScalarV`), on which the recursion of lines
164-183 is the identity (`recurseField_scalar` below), so the model recurses
only on the untouched path, where the field value is unchanged. -/
def processFields (env : Getenv) (pre : List String) : GoFields → Except String GoFields
  | .nil => .ok .nil
  | .cons m v rest =>
    match envStep env pre m v with
    | .error e => .error e
    | .ok o1 =>
      let c1 := match o1 with | none => v | some sc => sc.toGo
      match defaultStep m c1 with
      | .error e => .error e
      | .ok o2 =>
        let c2 := match o2 with | none => c1 | some sc => sc.toGo
        match o1, o2 with
        | none, none =>
          match recurseField env (pre ++ [m.name]) v with
          | .error e => .error e
          | .ok v3 =>
            match processFields env pre rest with
            | .error e => .error e
            | .ok rest2 => .ok (.cons m v3 rest2)
        | _, _ =>
          match processFields env pre rest with
          | .error e => .error e
          | .ok rest2 => .ok (.cons m c2 rest2)
termination_by structural fs => fs

/-- The recursion step for one field (`configor.go` lines 164-183): strip
every pointer indirection (`for field.Kind() == reflect.Ptr`; a nil pointer
dereferences to the invalid `Value` and stops the walk, so nothing is
allocated or recursed into), then recurse into a struct, or per element into
the struct elements of a slice. -/
def recurseField (env : Getenv) (pre : List String) : GoValue → Except String GoValue
  | .vPtr v => (recurseField env pre v).map .vPtr
  | .vStruct fs => (processFields env pre fs).map .vStruct
  | .vSlice es => (processElems env pre 0 es).map .vSlice
  | v => .ok v
termination_by structural v => v

/-- The slice-element loop (`configor.go` lines 174-183): for each element
that is a struct after one indirection, call `processTags` on the element's
address with the element index appended to the name segments (an element that
is a non-nil pointer to a struct passes the guard but then fails the struct
check inside `processTags`, exactly as in the source). -/
def processElems (env : Getenv) (pre : List String) (i : Nat) : GoValues → Except String GoValues
  | .nil => .ok .nil
  | .cons e rest =>
    match (if isStructIndirect e then processTagsV env (pre ++ [toString i]) e else .ok e) with
    | .error err => .error err
    | .ok e2 =>
      match processElems env pre (i + 1) rest with
      | .error err => .error err
      | .ok rest2 => .ok (.cons e2 rest2)
termination_by structural es => es

end


/-- The external deserializers (`yaml.Unmarshal`, `toml.Unmarshal`,
`json.Unmarshal` applied to a file's bytes): each takes the file contents and
the current configuration value and returns the merged value or a parse
error.  They are parameters of the model (external collaborators). -/
structure Codecs where
  tomlDec : String → GoValue → Except String GoValue
  jsonDec : String → GoValue → Except String GoValue
  yamlDec : String → GoValue → Except String GoValue

/-- `load` (`configor.go` lines 188-211): read the file, then dispatch on the
filename suffix; with no recognized suffix, try TOML, then JSON, then YAML,
keeping the first success, and fail only when all three fail.  `readF` models
`ioutil.ReadFile` (contents or an I/O error).  A failed decoder attempt leaves
the configuration value unchanged in the model (Go may leave partial writes in
`config`, which the fallback chain then overwrites). -/
def load (c : Codecs) (readF : String → Except String String) (config : GoValue)
    (file : String) : Except String GoValue :=
  match readF file with
  | .error e => .error e
  | .ok data =>
    if strEndsWith file ".yaml" || strEndsWith file ".yml" then c.yamlDec data config
    else if strEndsWith file ".toml" then c.tomlDec data config
    else if strEndsWith file ".json" then c.jsonDec data config
    else
      match c.tomlDec data config with
      | .ok cfg => .ok cfg
      | .error _ =>
        match c.jsonDec data config with
        | .ok cfg => .ok cfg
        | .error _ =>
          match c.yamlDec data config with
          | .ok cfg => .ok cfg
          | .error _ => .error "failed to decode config"

/-- The file loop of `Load` (`configor.go` lines 114-118): fold `load` over
the resolved paths in order, stopping at the first error. -/
def loadAll (c : Codecs) (readF : String → Except String String) :
    GoValue → List String → Except String GoValue
  | config, [] => .ok config
  | config, f :: rest =>
    match load c readF config f with
    | .error e => .error e
    | .ok cfg => loadAll c readF cfg rest

/-- `Load` (`configor.go` lines 109-125): resolve the base references (with
the current environment name from `ENV`), deserialize and merge each resolved
file in order, then run `processTags` once with the name segments from
`loadPfxList`. -/
def Load (fs : FS) (getenv : Getenv) (arg0 : String) (c : Codecs)
    (readF : String → Except String String) (config : GoValue) (files : List String) :
    Except String GoValue :=
  match getConfigurations fs (ENV getenv arg0) files with
  | .error e => .error e
  | .ok resolved =>
    match loadAll c readF config resolved with
    | .error e => .error e
    | .ok cfg => processTagsV getenv (loadPfxList getenv) cfg

/-- The external serializers (`yaml.Marshal`, `json.Marshal`): contents or an
encode error.  Parameters of the model. -/
structure Marshalers where
  yamlMar : GoValue → Except String String
  jsonMar : GoValue → Except String String

/-- The observable outcome of `Save`: the error value `Save` returns (`none`
for a nil error) and the contents passed to `ioutil.WriteFile` (`none` when
the write step never runs).  The write itself is assumed to succeed; its own
I/O error is not at issue in any claim. -/
structure SaveOutcome where
  retErr : Option String
  written : Option String
deriving Repr, DecidableEq

/-- `Save` (`configor.go` lines 87-106): marshal as YAML for `.yaml`/`.yml`
targets and as JSON for `.json` targets, else return "Unknown file type";
on a marshal error the source returns `nil` and skips the write (line 101
reads `return nil`, not `return err`). -/
def Save (mar : Marshalers) (config : GoValue) (filename : String) : SaveOutcome :=
  if strEndsWith filename ".yaml" || strEndsWith filename ".yml" then
    match mar.yamlMar config with
    | .ok js => { retErr := none, written := some js }
    | .error _ => { retErr := none, written := none }
  else if strEndsWith filename ".json" then
    match mar.jsonMar config with
    | .ok js => { retErr := none, written := some js }
    | .error _ => { retErr := none, written := none }
  else { retErr := some "Unknown file type", written := none }

/-! Concrete instances used by counterexamples and witnesses. -/

/-- Trivial codecs: every decoder returns the configuration unchanged. -/
def codecs0 : Codecs := ⟨fun _ c => .ok c, fun _ c => .ok c, fun _ c => .ok c⟩

/-- Trivial file reader: every file reads as `""`. -/
def read0 : String → Except String String := fun _ => .ok ""

/-- An environment where only `CONFIGOR_PORT` is set, to `"0"`. -/
def envC1 : Getenv := fun k => if k == "CONFIGOR_PORT" then "0" else ""

/-- A field `Port` with a `default:"5"` tag and no `env` or `required` tag. -/
def metaC1 : FieldMeta := ⟨"Port", "", "5", ""⟩

/-- An environment where only `CONFIGOR_PORT` is set, to `"7"`. -/
def envW : Getenv := fun k => if k == "CONFIGOR_PORT" then "7" else ""

/-- An environment where only `PREFIX_SERVERS_0_PORT` is set, to `"9000"`. -/
def envC3 : Getenv := fun k => if k == "PREFIX_SERVERS_0_PORT" then "9000" else ""

/-- A struct with a single field `Servers`, a slice holding one struct with a
single integer field `Port`, initially `0`. -/
def serversC3 : GoFields :=
  .cons ⟨"Servers", "", "", ""⟩
    (.vSlice (.cons (.vStruct (.cons ⟨"Port", "", "", ""⟩ (.vInt 0) .nil)) .nil)) .nil

/-- A file system holding exactly the two regular files `a.yml` and `b.yml`. -/
def fsC4 : FS := fun p => p == "a.yml" || p == "b.yml"

/-- A file system holding exactly the regular file `app.example.yml`. -/
def fsC5 : FS := fun p => p == "app.example.yml"

/-- Marshalers that fail on every value with error `"boom"`. -/
def marFail : Marshalers := ⟨fun _ => .error "boom", fun _ => .error "boom"⟩

/-- Codecs whose TOML decoder always fails and whose JSON decoder always
returns `vInt 1`, to exercise the fallback chain. -/
def codecsC7 : Codecs :=
  ⟨fun _ _ => .error "toml bad", fun _ _ => .ok (.vInt 1), fun _ _ => .ok (.vInt 2)⟩

/-- The recursion of `configor.go` lines 164-183 is the identity on scalar
values: a scalar is not a pointer, a struct or a slice.  This justifies
`processFields` skipping `recurseField` on a freshly decoded scalar. -/
theorem recurseField_scalar (env : Getenv) (pre : List String) (sc : ScalarV) :
    recurseField env pre sc.toGo = .ok sc.toGo := by
  cases sc <;> rfl

/-- C9: the environment-name operation returns the value of `CONFIGOR_ENV`
when that variable is non-empty; otherwise it returns `"test"` when the
running binary's invocation path matches the test-runner pattern `"/_test/"`,
and `"development"` in all remaining cases. -/
theorem c9_env_resolution (getenv : Getenv) (arg0 : String) :
    (getenv "CONFIGOR_ENV" ≠ "" → ENV getenv arg0 = getenv "CONFIGOR_ENV") ∧
    (getenv "CONFIGOR_ENV" = "" → strHasSub "/_test/" arg0 = true →
      ENV getenv arg0 = "test") ∧
    (getenv "CONFIGOR_ENV" = "" → strHasSub "/_test/" arg0 = false →
      ENV getenv arg0 = "development") := by
  refine ⟨fun h => ?_, fun h ht => ?_, fun h ht => ?_⟩
  · simp [ENV, h]
  · simp [ENV, h, ht]
  · simp [ENV, h, ht]

/-- C9 witness: `ENV` evaluated with `CONFIGOR_ENV` set to `"qa"`, and unset
with a test-runner and a non-test invocation path. -/
theorem c9_env_resolution_witness :
    ENV (fun k => if k == "CONFIGOR_ENV" then "qa" else "") "/a/b" = "qa" ∧
    ENV (fun _ => "") "/a/_test/b" = "test" ∧
    ENV (fun _ => "") "/a/b" = "development" :=
  ⟨(c9_env_resolution _ "/a/b").1 (by decide),
   (c9_env_resolution _ "/a/_test/b").2.1 rfl (by rfl),
   (c9_env_resolution _ "/a/b").2.2 rfl (by rfl)⟩

/-- C8: the initial name segment passed by `Load` to the binding engine is the
value of `CONFIGOR_ENV_PREFIX` when that variable is non-empty and the fixed
token `"configor"` otherwise; when `CONFIGOR_ENV_PREFIX` equals the sentinel
`"-"`, the engine is invoked with an empty segment list. -/
theorem c8_initial_segments (getenv : Getenv) :
    (getenv "CONFIGOR_ENV_PREFIX" ≠ "" → getPfx getenv = getenv "CONFIGOR_ENV_PREFIX") ∧
    (getenv "CONFIGOR_ENV_PREFIX" = "" → getPfx getenv = "configor") ∧
    (getenv "CONFIGOR_ENV_PREFIX" = "-" → loadPfxList getenv = []) ∧
    (getenv "CONFIGOR_ENV_PREFIX" ≠ "" → getenv "CONFIGOR_ENV_PREFIX" ≠ "-" →
      loadPfxList getenv = [getenv "CONFIGOR_ENV_PREFIX"]) ∧
    (getenv "CONFIGOR_ENV_PREFIX" = "" → loadPfxList getenv = ["configor"]) := by
  refine ⟨fun h => ?_, fun h => ?_, fun h => ?_, fun h h2 => ?_, fun h => ?_⟩ <;>
    simp [getPfx, loadPfxList, h]
  · intro hc
    exact absurd (by rw [hc]) h2

/-- C8 witness: the segment list for `CONFIGOR_ENV_PREFIX` set to `"APP"`, to
the sentinel `"-"`, and unset. -/
theorem c8_initial_segments_witness :
    loadPfxList (fun k => if k == "CONFIGOR_ENV_PREFIX" then "APP" else "") = ["APP"] ∧
    loadPfxList (fun k => if k == "CONFIGOR_ENV_PREFIX" then "-" else "") = [] ∧
    loadPfxList (fun _ => "") = ["configor"] :=
  ⟨(c8_initial_segments _).2.2.2.1 (by decide) (by decide),
   (c8_initial_segments _).2.2.1 rfl,
   (c8_initial_segments _).2.2.2.2 rfl⟩

/-- C6: `Save` does fail with "Unknown file type" for every filename whose
suffix is not `.yaml`, `.yml` or `.json` (first conjunct), but a
serialization failure does NOT propagate to the caller: on a marshal error
the source returns `nil` (`configor.go` line 101) and skips the write, so the
caller observes a nil error and no file — the second and third conjuncts
evaluate the code on failing marshalers and exhibit the dropped error. -/
theorem c6_save_error_dropped (mar : Marshalers) (config : GoValue)
    (filename : String) (e e2 : String) :
    (strEndsWith filename ".yaml" = false → strEndsWith filename ".yml" = false →
      strEndsWith filename ".json" = false →
      Save mar config filename = { retErr := some "Unknown file type", written := none }) ∧
    (mar.jsonMar config = .error e →
      Save mar config "conf.json" = { retErr := none, written := none }) ∧
    (mar.yamlMar config = .error e2 →
      Save mar config "conf.yml" = { retErr := none, written := none }) := by
  refine ⟨fun h1 h2 h3 => ?_, fun h => ?_, fun h => ?_⟩
  · simp [Save, h1, h2, h3]
  · simp [Save, h, show strEndsWith "conf.json" ".yaml" = false from rfl,
      show strEndsWith "conf.json" ".yml" = false from rfl,
      show strEndsWith "conf.json" ".json" = true from rfl]
  · simp [Save, h, show strEndsWith "conf.yml" ".yaml" = false from rfl,
      show strEndsWith "conf.yml" ".yml" = true from rfl]

/-- C6 witness: `Save` with always-failing marshalers returns a nil error and
writes nothing for a `.json` and a `.yml` target, and the unknown-type error
for a `.txt` target. -/
theorem c6_save_error_dropped_witness :
    Save marFail .vNilPtr "conf.txt" = { retErr := some "Unknown file type", written := none } ∧
    Save marFail .vNilPtr "conf.json" = { retErr := none, written := none } ∧
    Save marFail .vNilPtr "conf.yml" = { retErr := none, written := none } :=
  ⟨(c6_save_error_dropped marFail .vNilPtr "conf.txt" "boom" "boom").1 (by rfl) (by rfl) (by rfl),
   (c6_save_error_dropped marFail .vNilPtr "conf.json" "boom" "boom").2.1 rfl,
   (c6_save_error_dropped marFail .vNilPtr "conf.yml" "boom" "boom").2.2 rfl⟩

/-- C7: for a file whose name ends in none of `.yaml`, `.yml`, `.toml`,
`.json`, the loader tries TOML, then JSON, then YAML in that order, succeeds
with the result of the first decoder that parses, and fails (with "failed to
decode config") only when all three fail. -/
theorem c7_fallback_order (c : Codecs) (readF : String → Except String String)
    (config : GoValue) (file data : String)
    (h1 : strEndsWith file ".yaml" = false) (h2 : strEndsWith file ".yml" = false)
    (h3 : strEndsWith file ".toml" = false) (h4 : strEndsWith file ".json" = false)
    (hr : readF file = .ok data) :
    (∀ w, c.tomlDec data config = .ok w → load c readF config file = .ok w) ∧
    (∀ e1 w, c.tomlDec data config = .error e1 → c.jsonDec data config = .ok w →
      load c readF config file = .ok w) ∧
    (∀ e1 e2 w, c.tomlDec data config = .error e1 → c.jsonDec data config = .error e2 →
      c.yamlDec data config = .ok w → load c readF config file = .ok w) ∧
    (∀ e1 e2 e3, c.tomlDec data config = .error e1 → c.jsonDec data config = .error e2 →
      c.yamlDec data config = .error e3 →
      load c readF config file = .error "failed to decode config") := by
  refine ⟨fun w ht => ?_, fun e1 w ht hj => ?_, fun e1 e2 w ht hj hy => ?_,
    fun e1 e2 e3 ht hj hy => ?_⟩
  · simp [load, hr, h1, h2, h3, h4, ht]
  · simp [load, hr, h1, h2, h3, h4, ht, hj]
  · simp [load, hr, h1, h2, h3, h4, ht, hj, hy]
  · simp [load, hr, h1, h2, h3, h4, ht, hj, hy]

/-- C7 witness: with a failing TOML decoder and a succeeding JSON decoder, the
extensionless file `conf` decodes to the JSON decoder's result. -/
theorem c7_fallback_order_witness :
    load codecsC7 read0 .vNilPtr "conf" = .ok (.vInt 1) :=
  (c7_fallback_order codecsC7 read0 .vNilPtr "conf" "" rfl rfl rfl rfl rfl).2.1
    "toml bad" (.vInt 1) rfl rfl

/-- C4 counterexample: with both `a.yml` and `b.yml` present (and no
environment or example variants), `getConfigurations` on the base references
`["a.yml", "b.yml"]` returns `["b.yml", "a.yml"]`: the second reference's
resolved path comes FIRST, not after the first reference's path, refuting the
claimed ordering (the loop of `configor.go` line 50 walks the input in reverse
and appends). -/
theorem c4_counterexample :
    getConfigurations fsC4 "development" ["a.yml", "b.yml"] = .ok ["b.yml", "a.yml"] ∧
    getConfigurations fsC4 "development" ["a.yml", "b.yml"] ≠ .ok ["a.yml", "b.yml"] := by
  constructor
  · rfl
  · intro h
    rw [show getConfigurations fsC4 "development" ["a.yml", "b.yml"] =
      .ok ["b.yml", "a.yml"] from rfl] at h
    simp at h

/-- C4 (amended): the resolver processes base references in reverse input
order, so for two base references the resolved paths of the second reference
come BEFORE those of the first (and `Load`'s sequential merge therefore lets
the first, earlier reference override the second); within a single reference
the base path still precedes the environment-suffixed variant
(most-general first within a reference). -/
theorem c4_resolver_order (fs : FS) (envName f1 f2 : String) (l1 l2 : List String) :
    (resolveOne fs envName f1 = .ok l1 → resolveOne fs envName f2 = .ok l2 →
      getConfigurations fs envName [f1, f2] = .ok (l2 ++ l1)) ∧
    (∀ envf, fs f1 = true → getConfigurationWithENV fs f1 envName = .ok envf →
      resolveOne fs envName f1 = .ok [f1, envf]) := by
  constructor
  · intro h1 h2
    simp [getConfigurations, getConfigurationsAux, h1, h2]
  · intro envf hb he
    simp [resolveOne, hb, he]

/-- C4 witness: `c4_resolver_order` applied to the two-file system `fsC4`
(with no suffixed variants) and to a file system where `conf.yml` and its
`development` variant both exist. -/
theorem c4_resolver_order_witness :
    getConfigurations fsC4 "development" ["a.yml", "b.yml"] = .ok (["b.yml"] ++ ["a.yml"]) ∧
    resolveOne (fun p => p == "conf.yml" || p == "conf.development.yml") "development"
      "conf.yml" = .ok ["conf.yml", "conf.development.yml"] :=
  ⟨(c4_resolver_order fsC4 "development" "a.yml" "b.yml" ["a.yml"] ["b.yml"]).1 rfl rfl,
   (c4_resolver_order (fun p => p == "conf.yml" || p == "conf.development.yml")
      "development" "conf.yml" "x" ["x"] ["x"]).2 "conf.development.yml" rfl rfl⟩

/-- C5: for a base reference whose base path and environment-suffixed variant
are both missing, the `.example`-suffixed variant is used alone when it
exists; and when none of the three variants exists, `Load` fails with the
file-not-found error for that reference before reading any file — the second
conjunct holds for every reader `readF`, every codec set and every starting
configuration value, so no file content is consulted and the configuration
object is left unchanged. -/
theorem c5_example_fallback_and_not_found (fs : FS) (getenv : Getenv) (arg0 : String)
    (c : Codecs) (readF : String → Except String String) (config : GoValue) (f : String) :
    (∀ envName, fs f = false → fs (envVariantName f envName) = false →
      fs (envVariantName f "example") = true →
      resolveOne fs envName f = .ok [envVariantName f "example"]) ∧
    (fs f = false → fs (envVariantName f (ENV getenv arg0)) = false →
      fs (envVariantName f "example") = false →
      Load fs getenv arg0 c readF config [f] =
        .error ("Failed to find configuration " ++ f ++ "\n")) := by
  constructor
  · intro envName hb he hex
    simp [resolveOne, getConfigurationWithENV, hb, he, hex]
  · intro hb he hex
    simp [Load, getConfigurations, getConfigurationsAux, resolveOne,
      getConfigurationWithENV, hb, he, hex]

/-- C5 witness: with only `app.example.yml` on disk the reference `app.yml`
resolves to the example file alone; with an empty file system `Load` fails
with the file-not-found error. -/
theorem c5_example_fallback_and_not_found_witness :
    resolveOne fsC5 "development" "app.yml" = .ok ["app.example.yml"] ∧
    Load (fun _ => false) (fun _ => "") "" codecs0 read0 .vNilPtr ["app.yml"] =
      .error ("Failed to find configuration " ++ "app.yml" ++ "\n") :=
  ⟨by
    have h := (c5_example_fallback_and_not_found fsC5 (fun _ => "") "" codecs0 read0
      .vNilPtr "app.yml").1 "development" rfl rfl rfl
    simpa using h,
   (c5_example_fallback_and_not_found (fun _ => false) (fun _ => "") "" codecs0 read0
      .vNilPtr "app.yml").2 rfl rfl rfl⟩

/-- C1 counterexample: field `Port` has `default:"5"` and the non-empty
override `CONFIGOR_PORT=0` for its derived name; the override decodes
successfully to `0` (first conjunct), yet after a successful `Load` the field
holds the default `5`, not the override's decoded value `0`: because `0` is
deep-equal to the zero value, the default step of `configor.go` line 152
overwrites the decoded override. -/
theorem c1_counterexample :
    decode "0" (.vInt 0) = .ok (.sInt 0) ∧
    Load (fun _ => false) envC1 "" codecs0 read0
        (.vStruct (.cons metaC1 (.vInt 0) .nil)) [] =
      .ok (.vStruct (.cons metaC1 (.vInt 5) .nil)) ∧
    GoValue.vInt 5 ≠ GoValue.vInt 0 :=
  ⟨rfl, rfl, by decide⟩

/-- C1 (amended): for a field with a declared default literal and a non-empty
environment override for its derived name, the field holds the override's
decoded value whenever that decoded value is not the type's zero value; the
default literal is decoded into the field exactly when the field holds its
type's zero value (by deep equality) after the override step — including when
that zero value is the override's own decoded value. -/
theorem c1_override_vs_default (env : Getenv) (pre : List String) (m : FieldMeta)
    (v : GoValue) (s : String) (w d : ScalarV)
    (hn : deriveEnvName pre m ≠ "") (he : env (deriveEnvName pre m) = s) (hs : s ≠ "")
    (hw : decode s v = .ok w) (hd : m.defaultTag ≠ "")
    (hdd : decode m.defaultTag w.toGo = .ok d) :
    processFields env pre (.cons m v .nil) =
      .ok (.cons m (if isZero w.toGo then d.toGo else w.toGo) .nil) := by
  have h1 : envStep env pre m v = .ok (some w) := by
    simp [envStep, Except.map, hn, he, hs, hw]
  by_cases hz : isZero w.toGo = true
  · have h2 : defaultStep m w.toGo = .ok (some d) := by
      simp [defaultStep, Except.map, hz, hd, hdd]
    simp [processFields, h1, h2, hz]
  · have h2 : defaultStep m w.toGo = .ok none := by
      simp [defaultStep, hz]
    simp [processFields, h1, h2, hz]

/-- C1 witness: `CONFIGOR_PORT=7` with `default:"5"` on a zero `Port` field
gives `7` (the override's decoded value, which is non-zero). -/
theorem c1_override_vs_default_witness :
    processFields envW ["configor"] (.cons metaC1 (.vInt 0) .nil) =
      .ok (.cons metaC1 (.vInt 7) .nil) := by
  simpa using c1_override_vs_default envW ["configor"] metaC1 (.vInt 0) "7"
    (.sInt 7) (.sInt 5) (by decide) rfl (by decide) rfl (by decide) rfl

/-- C2: a field that is blank after the override step (either untouched and
zero, first conjunct, or overridden to a zero value, second conjunct), with no
default literal and `required:"true"`, makes the engine fail immediately with
an error naming the field; the result is this error for EVERY tail `rest` of
later fields, so no later field is overridden, defaulted or recursed into.
When both a default and `required:"true"` are set (third conjunct), the
default is applied and the required error is never raised. -/
theorem c2_required_failfast (env : Getenv) (pre : List String) (m : FieldMeta)
    (v : GoValue) (rest : GoFields) :
    (envStep env pre m v = .ok none → isZero v = true →
      m.defaultTag = "" → m.requiredTag = "true" →
      processFields env pre (.cons m v rest) =
        .error (m.name ++ " is required, but blank")) ∧
    (∀ w, envStep env pre m v = .ok (some w) → isZero w.toGo = true →
      m.defaultTag = "" → m.requiredTag = "true" →
      processFields env pre (.cons m v rest) =
        .error (m.name ++ " is required, but blank")) ∧
    (∀ d rest2, envStep env pre m v = .ok none → isZero v = true →
      m.defaultTag ≠ "" → m.requiredTag = "true" →
      decode m.defaultTag v = .ok d →
      processFields env pre rest = .ok rest2 →
      processFields env pre (.cons m v rest) = .ok (.cons m d.toGo rest2)) := by
  refine ⟨fun h1 hz hdt hrq => ?_, fun w h1 hz hdt hrq => ?_,
    fun d rest2 h1 hz hdt hrq hdd hrest => ?_⟩
  · have h2 : defaultStep m v = .error (m.name ++ " is required, but blank") := by
      simp [defaultStep, hz, hdt, hrq]
    simp [processFields, h1, h2]
  · have h2 : defaultStep m w.toGo = .error (m.name ++ " is required, but blank") := by
      simp [defaultStep, hz, hdt, hrq]
    simp [processFields, h1, h2]
  · have h2 : defaultStep m v = .ok (some d) := by
      simp [defaultStep, Except.map, hz, hdt, hdd]
    simp [processFields, h1, h2, hrest]

/-- C2 witness: a blank `required` string field `APIKey` with an empty
environment fails with the required error even with a later field present;
and when `default:"5"` and `required:"true"` are both set on a zero `Port`
field the default is applied. -/
theorem c2_required_failfast_witness :
    processFields (fun _ => "") [] (.cons ⟨"APIKey", "", "", "true"⟩ (.vStr "")
        (.cons ⟨"Later", "", "9", ""⟩ (.vInt 0) .nil)) =
      .error ("APIKey" ++ " is required, but blank") ∧
    processFields (fun _ => "") [] (.cons ⟨"Port", "", "5", "true"⟩ (.vInt 0) .nil) =
      .ok (.cons ⟨"Port", "", "5", "true"⟩ (.vInt 5) .nil) :=
  ⟨(c2_required_failfast (fun _ => "") [] ⟨"APIKey", "", "", "true"⟩ (.vStr "")
      (.cons ⟨"Later", "", "9", ""⟩ (.vInt 0) .nil)).1 rfl rfl rfl rfl,
   (c2_required_failfast (fun _ => "") [] ⟨"Port", "", "5", "true"⟩ (.vInt 0) .nil).2.2
      (.sInt 5) .nil rfl rfl (by decide) rfl rfl rfl⟩

/-- C3: the environment variable consulted for a field is the explicit `env`
tag when non-empty (first conjunct); otherwise the name segments followed by
the field name, joined with `"_"` and upper-cased (second conjunct); and for
a slice of structs the engine recurses per element with the index appended as
a segment, so element 0's `Port` under field `Servers` with initial segment
`PREFIX` is overridden by `PREFIX_SERVERS_0_PORT` (third conjunct). -/
theorem c3_env_naming (env : Getenv) (pre : List String) (m : FieldMeta) (v : GoValue) :
    (∀ s w, m.envTag ≠ "" → env m.envTag = s → s ≠ "" →
      decode s v = .ok w → isZero w.toGo = false →
      processFields env pre (.cons m v .nil) = .ok (.cons m w.toGo .nil)) ∧
    (∀ s w, m.envTag = "" →
      asciiUpper (String.intercalate "_" (pre ++ [m.name])) ≠ "" →
      env (asciiUpper (String.intercalate "_" (pre ++ [m.name]))) = s → s ≠ "" →
      decode s v = .ok w → isZero w.toGo = false →
      processFields env pre (.cons m v .nil) = .ok (.cons m w.toGo .nil)) ∧
    processFields envC3 ["PREFIX"] serversC3 =
      .ok (.cons ⟨"Servers", "", "", ""⟩
        (.vSlice (.cons (.vStruct (.cons ⟨"Port", "", "", ""⟩ (.vInt 9000) .nil)) .nil))
        .nil) := by
  refine ⟨fun s w het he hs hw hz => ?_, fun s w het hj he hs hw hz => ?_, rfl⟩
  · have h1 : envStep env pre m v = .ok (some w) := by
      simp [envStep, deriveEnvName, Except.map, het, he, hs, hw]
    have h2 : defaultStep m w.toGo = .ok none := by
      simp [defaultStep, hz]
    simp [processFields, h1, h2]
  · have h1 : envStep env pre m v = .ok (some w) := by
      simp [envStep, deriveEnvName, Except.map, het, hj, he, hs, hw]
    have h2 : defaultStep m w.toGo = .ok none := by
      simp [defaultStep, hz]
    simp [processFields, h1, h2]

/-- C3 witness: an explicit `env:"APP_PORT"` tag is consulted instead of the
derived name, and a derived name `CONFIGOR_PORT` is consulted when the tag is
absent. -/
theorem c3_env_naming_witness :
    processFields (fun k => if k == "APP_PORT" then "7" else "") []
        (.cons ⟨"Port", "APP_PORT", "", ""⟩ (.vInt 0) .nil) =
      .ok (.cons ⟨"Port", "APP_PORT", "", ""⟩ (.vInt 7) .nil) ∧
    processFields envW ["configor"] (.cons ⟨"Port", "", "", ""⟩ (.vInt 0) .nil) =
      .ok (.cons ⟨"Port", "", "", ""⟩ (.vInt 7) .nil) :=
  ⟨(c3_env_naming (fun k => if k == "APP_PORT" then "7" else "") []
      ⟨"Port", "APP_PORT", "", ""⟩ (.vInt 0)).1 "7" (.sInt 7)
      (by decide) rfl (by decide) rfl rfl,
   (c3_env_naming envW ["configor"] ⟨"Port", "", "", ""⟩ (.vInt 0)).2.1 "7" (.sInt 7)
      rfl (by decide) rfl (by decide) rfl rfl⟩

/-- C10: a field holding a nil pointer after the override and default steps
(no environment value for its derived name, no default literal, not
`required`) is left nil and nothing is allocated or recursed into: the result
holds for EVERY environment agreeing on the derived name, so no variable
derived for a pointed-to struct's fields is consulted and no nested required
check can fire, and processing continues with the remaining fields. -/
theorem c10_nil_ptr_not_recursed (env : Getenv) (pre : List String) (m : FieldMeta)
    (rest rest2 : GoFields)
    (he : env (deriveEnvName pre m) = "") (hd : m.defaultTag = "")
    (hr : m.requiredTag ≠ "true")
    (hrest : processFields env pre rest = .ok rest2) :
    processFields env pre (.cons m .vNilPtr rest) = .ok (.cons m .vNilPtr rest2) := by
  have h1 : envStep env pre m .vNilPtr = .ok none := by
    by_cases hn : deriveEnvName pre m = ""
    · simp [envStep, hn]
    · simp [envStep, hn, he]
  have h2 : defaultStep m .vNilPtr = .ok none := by
    simp [defaultStep, isZero, hd, hr]
  simp [processFields, h1, h2, recurseField, hrest]

/-- C10 witness: a nil pointer field `DB` stays nil and raises no error even
though the environment assigns a value to `CONFIGOR_DB_HOST`, a name that
would be derived for a field of the pointed-to struct. -/
theorem c10_nil_ptr_not_recursed_witness :
    processFields (fun k => if k == "CONFIGOR_DB_HOST" then "h" else "") ["configor"]
        (.cons ⟨"DB", "", "", ""⟩ .vNilPtr .nil) =
      .ok (.cons ⟨"DB", "", "", ""⟩ .vNilPtr .nil) :=
  c10_nil_ptr_not_recursed (fun k => if k == "CONFIGOR_DB_HOST" then "h" else "")
    ["configor"] ⟨"DB", "", "", ""⟩ .nil .nil rfl rfl (by decide) rfl
